import Mathlib

/-!
Verification development for the SQLHelpersAJM repository.

The Python sources are shallowly embedded: strings become `List Char`,
database cell values become `PyVal`, fallible code returns `Except PyErr`,
and query side effects are modelled by explicit state passing.  Each
definition mirrors the function of the same name in the source tree.
-/

namespace SQLHelpersAJM

/-- Python strings, embedded as lists of characters. -/
abbrev Str := List Char

/-- Characters of a Lean string literal, used to write concrete `Str` values. -/
def strLit (s : String) : Str := s.data

/-- A database cell value as handled by the helpers: SQL NULL (`None` in
Python), booleans, integers, or text. -/
inductive PyVal where
  | none : PyVal
  | bool : Bool → PyVal
  | int : Int → PyVal
  | str : Str → PyVal
deriving DecidableEq, Repr, Inhabited

/-- A fetched row: `fetchall` returns a list of tuples of cell values. -/
abbrev Row := List PyVal

/-- The value stored in `query_results` after normalization: either the
original list of rows, a single unwrapped row, or a bare cell value. -/
inductive NormResult where
  | rows : List Row → NormResult
  | row : Row → NormResult
  | cell : PyVal → NormResult
deriving DecidableEq, Repr

/-- The exceptions raised by the embedded code paths. -/
inductive PyErr where
  | attributeError : PyErr
  | typeError : PyErr
  | indexError : PyErr
  | recursionError : PyErr
  | noCursorInitialized : PyErr
  | noResultsToConvert : PyErr
deriving DecidableEq, Repr

/-- Python truthiness of a cell value (`bool(v)`). -/
def truthyVal : PyVal → Bool
  | .none => false
  | .bool b => b
  | .int n => n ≠ 0
  | .str s => s ≠ []

/-- Python truthiness of a stored query result (`bool(query_results)`). -/
def truthyNorm : NormResult → Bool
  | .rows rs => rs ≠ []
  | .row r => r ≠ []
  | .cell v => truthyVal v

/-- `_BaseSQLHelper.normalize_single_result` (SQLHelpersAJM.py lines 181-199):
if exactly one row was fetched, unwrap to that row; if the unwrapped row has
exactly one entry, or exactly two entries with the second equal to the empty
string, unwrap further to the bare first entry. -/
def normalize_single_result (result : List Row) : NormResult :=
  if result.length = 1 then
    let r := result.headD []
    if r.length = 1 ∨ (r.length = 2 ∧ r.getD 1 PyVal.none = PyVal.str []) then
      NormResult.cell (r.headD PyVal.none)
    else
      NormResult.row r
  else
    NormResult.rows result

/-- The mutable state of a `_BaseSQLHelper` relevant to querying: whether a
cursor has been initialized, and the stored `query_results`. -/
structure HelperState where
  hasCursor : Bool
  query_results : Option NormResult
deriving DecidableEq, Repr

/-- `_BaseSQLHelper.query` (SQLHelpersAJM.py lines 201-226): requires a live
cursor (`cursor_check`), executes the statement, fetches all rows
(`fetched`), optionally commits, normalizes the fetched rows and stores them
in `query_results`.  The commit only touches the connection, not the stored
results. -/
def query (st : HelperState) (fetched : List Row) (is_commit : Bool) :
    Except PyErr HelperState :=
  if st.hasCursor = false then
    Except.error PyErr.noCursorInitialized
  else
    let _ := is_commit
    Except.ok { st with query_results := some (normalize_single_result fetched) }

/-- C1: a single-row result set unwraps to that row; if the unwrapped row has
exactly one column, or exactly two columns with an empty second value, it
unwraps further to the bare first value; a result set of two or more rows is
returned unchanged as the ordered list of rows. -/
theorem normalize_single_result_spec (rs : List Row) :
    (2 ≤ rs.length → normalize_single_result rs = NormResult.rows rs)
    ∧ (∀ c : PyVal, rs = [[c]] → normalize_single_result rs = NormResult.cell c)
    ∧ (∀ c c₂ : PyVal, rs = [[c, c₂]] → c₂ = PyVal.str [] →
        normalize_single_result rs = NormResult.cell c)
    ∧ (∀ r : Row, rs = [r] →
        ¬(r.length = 1 ∨ (r.length = 2 ∧ r.getD 1 PyVal.none = PyVal.str [])) →
        normalize_single_result rs = NormResult.row r) := by
  refine ⟨?_, ?_, ?_, ?_⟩
  · intro h
    have hne : rs.length ≠ 1 := by omega
    simp [normalize_single_result, hne]
  · rintro c rfl
    simp [normalize_single_result]
  · rintro c c₂ rfl rfl
    simp [normalize_single_result]
  · rintro r rfl h
    simp only [normalize_single_result, List.length_singleton, if_true, List.headD_cons]
    rw [if_neg h]

/-- Witness for `normalize_single_result_spec`: an existence-check row
`(true,)` collapses to the bare boolean, `('andrew', '')` collapses to
`'andrew'`, and a two-row result stays the ordered list of rows. -/
theorem normalize_single_result_spec_witness :
    normalize_single_result [[PyVal.bool true]] = NormResult.cell (PyVal.bool true)
    ∧ normalize_single_result [[PyVal.str (strLit "andrew"), PyVal.str []]]
        = NormResult.cell (PyVal.str (strLit "andrew"))
    ∧ normalize_single_result [[PyVal.int 1], [PyVal.int 2]]
        = NormResult.rows [[PyVal.int 1], [PyVal.int 2]] :=
  ⟨(normalize_single_result_spec [[PyVal.bool true]]).2.1 (PyVal.bool true) rfl,
   (normalize_single_result_spec [[PyVal.str (strLit "andrew"), PyVal.str []]]).2.2.1
      (PyVal.str (strLit "andrew")) (PyVal.str []) rfl rfl,
   (normalize_single_result_spec [[PyVal.int 1], [PyVal.int 2]]).1 (by decide)⟩

/-- C10: a single two-column row collapses to its first value exactly when the
second value is the empty string; a `None` (SQL NULL) or any other non-empty
second value leaves the two-column row unchanged. -/
theorem normalize_two_column_spec (v₁ v₂ : PyVal) :
    (v₂ = PyVal.str [] → normalize_single_result [[v₁, v₂]] = NormResult.cell v₁)
    ∧ (v₂ ≠ PyVal.str [] → normalize_single_result [[v₁, v₂]] = NormResult.row [v₁, v₂])
    ∧ normalize_single_result [[v₁, PyVal.none]] = NormResult.row [v₁, PyVal.none] := by
  refine ⟨?_, ?_, ?_⟩
  · rintro rfl
    simp [normalize_single_result]
  · intro h
    simp [normalize_single_result, h]
  · simp [normalize_single_result]

/-- Witness for `normalize_two_column_spec`: `('andrew', '')` collapses,
`('andrew', None)` does not. -/
theorem normalize_two_column_spec_witness :
    normalize_single_result [[PyVal.str (strLit "andrew"), PyVal.str []]]
      = NormResult.cell (PyVal.str (strLit "andrew"))
    ∧ normalize_single_result [[PyVal.str (strLit "andrew"), PyVal.none]]
      = NormResult.row [PyVal.str (strLit "andrew"), PyVal.none] :=
  ⟨(normalize_two_column_spec (PyVal.str (strLit "andrew")) (PyVal.str [])).1 rfl,
   (normalize_two_column_spec (PyVal.str (strLit "andrew")) PyVal.none).2.1 (by decide)⟩

/-- C6 counterexample: executing a statement that returns zero rows stores the
empty list of rows, which is not `None` — the stored `query_results` is
`some (rows [])`, not `none`. -/
theorem query_zero_rows_counterexample :
    query ⟨true, Option.none⟩ [] false
      = Except.ok ⟨true, some (NormResult.rows [])⟩
    ∧ (some (NormResult.rows []) : Option NormResult) ≠ Option.none := by
  exact ⟨rfl, by decide⟩

/-- C6 amended: for every executed statement that returns zero rows, the
stored query result is the empty row sequence `[]` (normalization leaves the
empty fetch untouched), not `None`. -/
theorem query_zero_rows_amended (st : HelperState) (is_commit : Bool)
    (h : st.hasCursor = true) :
    query st [] is_commit
      = Except.ok { st with query_results := some (NormResult.rows []) } := by
  simp [query, h, normalize_single_result]

/-- Witness for `query_zero_rows_amended` at a concrete state. -/
theorem query_zero_rows_amended_witness :
    query ⟨true, Option.none⟩ [] false
      = Except.ok ⟨true, some (NormResult.rows [])⟩ :=
  query_zero_rows_amended ⟨true, Option.none⟩ false rfl

/-! ### Connection attributes and the connection-string codec -/

/-- Python `str.split(sep)` for a one-character separator: splits on every
occurrence, keeping empty segments (`''.split(';') == ['']`). -/
def splitChar (c : Char) : Str → List Str
  | [] => [[]]
  | a :: rest =>
    if a = c then [] :: splitChar c rest
    else
      match splitChar c rest with
      | [] => [[a]]
      | h :: t => (a :: h) :: t

/-- A Python `dict` with string keys and values, as an insertion-ordered
association list; later insertions of an existing key overwrite in place. -/
abbrev AttrDict := List (Str × Str)

/-- Assigning `d[k] = v`: overwrite in place when the key exists, else append. -/
def dictInsert (d : AttrDict) (k v : Str) : AttrDict :=
  if d.any (fun p => decide (p.1 = k)) then
    d.map (fun p => if p.1 = k then (k, v) else p)
  else d ++ [(k, v)]

/-- `d.get(k)`: the value stored under `k`, if any. -/
def dictGet (d : AttrDict) (k : Str) : Option Str :=
  Option.map (fun p => p.2) (d.find? (fun p => decide (p.1 = k)))

/-- The attribute values held by `_BaseConnectionAttributes`: each text
attribute is a Python string or `None`; `port` is whatever value the `port`
keyword carried (an `int` by default). -/
structure ConnectionAttributes where
  server : Option Str
  instanceName : Option Str
  database : Option Str
  driver : Option Str
  username : Option Str
  password : Option Str
  port : PyVal
  trusted_connection : Option Str
deriving DecidableEq, Repr

/-- Python truthiness of a string-or-None attribute. -/
def truthyOStr : Option Str → Bool
  | Option.none => false
  | some s => !s.isEmpty

/-- Rendering an attribute into an f-string (`None` prints as `"None"`). -/
def fstr : Option Str → Str
  | Option.none => strLit "None"
  | some s => s

/-- `_BaseConnectionAttributes.connection_string` (SQLHelpersAJM.py lines
374-391): when server, instance, database and driver are all truthy, build
`driver=...;server=server\instance;database=...;UID=...;PWD=...;`
`trusted_connection=...`; otherwise return the previously cached string. -/
def connection_string (a : ConnectionAttributes) (cached : Option Str) : Option Str :=
  if truthyOStr a.server && truthyOStr a.instanceName
      && truthyOStr a.database && truthyOStr a.driver then
    some (strLit "driver=" ++ fstr a.driver ++ strLit ";server=" ++ fstr a.server
      ++ ['\\'] ++ fstr a.instanceName ++ strLit ";database=" ++ fstr a.database
      ++ strLit ";UID=" ++ fstr a.username ++ strLit ";PWD=" ++ fstr a.password
      ++ strLit ";trusted_connection=" ++ fstr a.trusted_connection)
  else cached

/-- The dict comprehension of `_connection_string_to_attributes`: each
attribute is split on the key/value character, the lower-cased first field
becomes the key and the second field the value; an attribute without the
key/value character raises `IndexError`. -/
def parseAttrs (kv : Char) : AttrDict → List Str → Except PyErr AttrDict
  | d, [] => Except.ok d
  | d, x :: rest =>
    match splitChar kv x with
    | k :: v :: _ => parseAttrs kv (dictInsert d (k.map Char.toLower) v) rest
    | _ => Except.error PyErr.indexError

/-- The tail of `_connection_string_to_attributes`: read the parsed `server`
value (`AttributeError` when absent, from `None.split`), and when it splits
on `\` into exactly two fields, store them as `server` and `instance`. -/
def serverSplitPhase (d : AttrDict) : Except PyErr AttrDict :=
  match dictGet d (strLit "server") with
  | Option.none => Except.error PyErr.attributeError
  | some sv =>
    if (splitChar '\\' sv).length = 2 then
      Except.ok (dictInsert (dictInsert d (strLit "server") ((splitChar '\\' sv).headD []))
        (strLit "instance") ((splitChar '\\' sv).getD 1 []))
    else Except.ok d

/-- `_BaseConnectionAttributes._connection_string_to_attributes`
(SQLHelpersAJM.py lines 393-413): split the string into attributes, parse
each into a lower-cased key and a value, and split a backslash-qualified
`server` value into separate `server` and `instance` entries. -/
def connection_string_to_attributes (cs : Str)
    (attr_split_char key_value_split_char : Char) : Except PyErr AttrDict :=
  match parseAttrs key_value_split_char [] (splitChar attr_split_char cs) with
  | Except.error e => Except.error e
  | Except.ok d => serverSplitPhase d

/-- The parameters of `_BaseConnectionAttributes.__init__` after Python
default resolution, including the keyword arguments it reads. -/
structure InitArgs where
  server : Option Str
  database : Option Str
  instanceName : Option Str := some (strLit "SQLEXPRESS")
  driver : Option Str := Option.none
  trusted_connection : Option Str := some (strLit "yes")
  username : Option Str := some []
  password : Option Str := some []
  port : PyVal := PyVal.int 0
  connection_string : Option Str := Option.none
deriving DecidableEq, Repr

/-- The attribute assignments performed by `__init__` (SQLHelpersAJM.py lines
336-343): every stored attribute comes from the explicit parameters or their
defaults. -/
def attributesOfArgs (a : InitArgs) : ConnectionAttributes :=
  { server := a.server, instanceName := a.instanceName, database := a.database,
    driver := a.driver, username := a.username, password := a.password,
    port := a.port, trusted_connection := a.trusted_connection }

/-- The argument binding of `cls(**cxn_attrs)` in `with_connection_string`:
dict keys bind to the named parameters of `__init__`, missing keys fall back
to the Python defaults, and a dict without `server` or `database` raises
`TypeError` (missing required positional argument).  Note the decoded keys
`uid` and `pwd` land in `**kwargs` and are never read. -/
def argsOfDict (d : AttrDict) : Except PyErr InitArgs :=
  match dictGet d (strLit "server"), dictGet d (strLit "database") with
  | some sv, some db =>
    Except.ok
      { server := some sv, database := some db,
        instanceName := match dictGet d (strLit "instance") with
          | some v => some v
          | Option.none => some (strLit "SQLEXPRESS"),
        driver := dictGet d (strLit "driver"),
        trusted_connection := match dictGet d (strLit "trusted_connection") with
          | some v => some v
          | Option.none => some (strLit "yes"),
        username := match dictGet d (strLit "username") with
          | some v => some v
          | Option.none => some [],
        password := match dictGet d (strLit "password") with
          | some v => some v
          | Option.none => some [],
        port := match dictGet d (strLit "port") with
          | some v => PyVal.str v
          | Option.none => PyVal.int 0,
        connection_string := dictGet d (strLit "connection_string") }
  | _, _ => Except.error PyErr.typeError

/-- `_BaseConnectionAttributes.__init__` (SQLHelpersAJM.py lines 326-348): if
a `connection_string` keyword was supplied, `with_connection_string` builds a
throwaway instance from it (propagating any parse error) whose result is
discarded; the stored attributes always come from the explicit parameters.
The fuel bounds the recursion `__init__` → `with_connection_string` →
`cls(**cxn_attrs)` → `__init__`. -/
def initWithFuel : Nat → InitArgs → Except PyErr ConnectionAttributes
  | 0, _ => Except.error PyErr.recursionError
  | fuel + 1, a =>
    match a.connection_string with
    | Option.none => Except.ok (attributesOfArgs a)
    | some cs =>
      match (if cs = [] then Except.error PyErr.attributeError
             else
               match connection_string_to_attributes cs ';' '=' with
               | Except.error e => Except.error e
               | Except.ok d =>
                 match argsOfDict d with
                 | Except.error e => Except.error e
                 | Except.ok a₂ => initWithFuel fuel a₂) with
      | Except.error e => Except.error e
      | Except.ok _ => Except.ok (attributesOfArgs a)

/-- `_BaseConnectionAttributes.with_connection_string` (SQLHelpersAJM.py
lines 415-438) with the default `;` and `=` delimiters: an empty string
raises `AttributeError`, otherwise the string is decoded and the class is
constructed from the decoded attributes. -/
def with_connection_string (fuel : Nat) (cs : Str) : Except PyErr ConnectionAttributes :=
  if cs = [] then Except.error PyErr.attributeError
  else
    match connection_string_to_attributes cs ';' '=' with
    | Except.error e => Except.error e
    | Except.ok d =>
      match argsOfDict d with
      | Except.error e => Except.error e
      | Except.ok a => initWithFuel fuel a

/-- `_BaseConnectionAttributes.connection_information` (SQLHelpersAJM.py
lines 359-372): the human-readable projection; the password entry is the
fixed literal `'WITHHELD or None'` and the instance's password is not read. -/
def connection_information (a : ConnectionAttributes) : List (Str × Option Str) :=
  [(strLit "server", a.server),
   (strLit "instance", a.instanceName),
   (strLit "database", a.database),
   (strLit "driver", a.driver),
   (strLit "username", a.username),
   (strLit "password", some (strLit "WITHHELD or None")),
   (strLit "trusted_connection", a.trusted_connection)]

/-- The connection string produced by `connection_string`: the rendered
driver, server, instance, database, credentials and trust flag joined with
the literal delimiters of the f-string (SQLHelpersAJM.py lines 383-388). -/
def encodedOf (dr sv inst db u p tc : Str) : Str :=
  strLit "driver=" ++ dr ++ strLit ";server=" ++ sv ++ ['\\'] ++ inst
    ++ strLit ";database=" ++ db ++ strLit ";UID=" ++ u ++ strLit ";PWD=" ++ p
    ++ strLit ";trusted_connection=" ++ tc

/-- Attributes with given core fields, credentials and port. -/
def fullAttrs (dr sv inst db tc : Str) (u p : Option Str) (port : PyVal) :
    ConnectionAttributes :=
  { server := some sv, instanceName := some inst, database := some db,
    driver := some dr, username := u, password := p,
    port := port, trusted_connection := some tc }

theorem not_mem_cons_of {c a : Char} {xs : Str} (h₁ : ¬c = a) (h₂ : c ∉ xs) :
    c ∉ a :: xs := by
  intro h
  rcases List.mem_cons.1 h with h | h
  · exact h₁ h
  · exact h₂ h

theorem not_mem_append_of {c : Char} {xs ys : Str} (h₁ : c ∉ xs) (h₂ : c ∉ ys) :
    c ∉ xs ++ ys := by
  intro h
  rcases List.mem_append.1 h with h | h
  · exact h₁ h
  · exact h₂ h

/-- Splitting a string that does not contain the separator yields the whole
string as the single field. -/
theorem splitChar_not_mem {c : Char} : ∀ {xs : Str}, c ∉ xs → splitChar c xs = [xs]
  | [], _ => rfl
  | a :: rest, h => by
    have ha : ¬a = c := fun e => h (by rw [e]; exact List.mem_cons_self c rest)
    have hr : c ∉ rest := fun m => h (List.mem_cons_of_mem a m)
    simp [splitChar, ha, splitChar_not_mem hr]

/-- Splitting peels off a separator-free field before the first separator. -/
theorem splitChar_append_sep {c : Char} (ys : Str) :
    ∀ {xs : Str}, c ∉ xs → splitChar c (xs ++ c :: ys) = xs :: splitChar c ys
  | [], _ => by simp [splitChar]
  | a :: rest, h => by
    have ha : ¬a = c := fun e => h (by rw [e]; exact List.mem_cons_self c rest)
    have hr : c ∉ rest := fun m => h (List.mem_cons_of_mem a m)
    simp [splitChar, ha, splitChar_append_sep ys hr]

/-- When the parsed `server` value splits on `\` into exactly two fields,
they replace the `server` entry and append an `instance` entry. -/
theorem serverSplitPhase_two {d : AttrDict} {v sv inst : Str}
    (hget : dictGet d (strLit "server") = some v)
    (hsp : splitChar '\\' v = [sv, inst]) :
    serverSplitPhase d
      = Except.ok (dictInsert (dictInsert d (strLit "server") sv)
          (strLit "instance") inst) := by
  simp [serverSplitPhase, hget, hsp]

/-- When the parsed `server` value has no backslash, the dict is unchanged. -/
theorem serverSplitPhase_one {d : AttrDict} {v : Str}
    (hget : dictGet d (strLit "server") = some v)
    (hsp : splitChar '\\' v = [v]) :
    serverSplitPhase d = Except.ok d := by
  simp [serverSplitPhase, hget, hsp]

/-- Decoding an encoded connection string with delimiter-free rendered
fields recovers the expected attribute dict: the credentials land under the
lower-cased keys `uid` and `pwd`. -/
theorem parse_encoded (dr sv inst db u p tc : Str)
    (hdr₁ : ';' ∉ dr) (hdr₂ : '=' ∉ dr)
    (hsv₁ : ';' ∉ sv) (hsv₂ : '=' ∉ sv) (hsv₃ : '\\' ∉ sv)
    (hin₁ : ';' ∉ inst) (hin₂ : '=' ∉ inst) (hin₃ : '\\' ∉ inst)
    (hdb₁ : ';' ∉ db) (hdb₂ : '=' ∉ db)
    (hu₁ : ';' ∉ u) (hu₂ : '=' ∉ u) (hp₁ : ';' ∉ p) (hp₂ : '=' ∉ p)
    (htc₁ : ';' ∉ tc) (htc₂ : '=' ∉ tc) :
    connection_string_to_attributes (encodedOf dr sv inst db u p tc) ';' '='
      = Except.ok [(strLit "driver", dr), (strLit "server", sv),
          (strLit "database", db), (strLit "uid", u), (strLit "pwd", p),
          (strLit "trusted_connection", tc), (strLit "instance", inst)] := by
  have hsplit : splitChar ';'
      ((strLit "driver=" ++ dr) ++ ';' :: ((strLit "server=" ++ (sv ++ '\\' :: inst))
        ++ ';' :: ((strLit "database=" ++ db) ++ ';' :: ((strLit "UID=" ++ u)
        ++ ';' :: ((strLit "PWD=" ++ p)
        ++ ';' :: (strLit "trusted_connection=" ++ tc))))))
      = [strLit "driver=" ++ dr, strLit "server=" ++ (sv ++ '\\' :: inst),
         strLit "database=" ++ db, strLit "UID=" ++ u, strLit "PWD=" ++ p,
         strLit "trusted_connection=" ++ tc] := by
    rw [splitChar_append_sep _ (not_mem_append_of (by decide) hdr₁),
        splitChar_append_sep _ (not_mem_append_of (by decide)
          (not_mem_append_of hsv₁ (not_mem_cons_of (by decide) hin₁))),
        splitChar_append_sep _ (not_mem_append_of (by decide) hdb₁),
        splitChar_append_sep _ (not_mem_append_of (by decide) hu₁),
        splitChar_append_sep _ (not_mem_append_of (by decide) hp₁),
        splitChar_not_mem (not_mem_append_of (by decide) htc₁)]
  have k₁ : splitChar '=' (strLit "driver=" ++ dr) = [strLit "driver", dr] := by
    have h : splitChar '=' (strLit "driver" ++ '=' :: dr) = [strLit "driver", dr] := by
      rw [splitChar_append_sep _ (by decide), splitChar_not_mem hdr₂]
    exact h
  have k₂ : splitChar '=' (strLit "server=" ++ (sv ++ '\\' :: inst))
      = [strLit "server", sv ++ '\\' :: inst] := by
    have h : splitChar '=' (strLit "server" ++ '=' :: (sv ++ '\\' :: inst))
        = [strLit "server", sv ++ '\\' :: inst] := by
      rw [splitChar_append_sep _ (by decide),
          splitChar_not_mem (not_mem_append_of hsv₂ (not_mem_cons_of (by decide) hin₂))]
    exact h
  have k₃ : splitChar '=' (strLit "database=" ++ db) = [strLit "database", db] := by
    have h : splitChar '=' (strLit "database" ++ '=' :: db) = [strLit "database", db] := by
      rw [splitChar_append_sep _ (by decide), splitChar_not_mem hdb₂]
    exact h
  have k₄ : splitChar '=' (strLit "UID=" ++ u) = [strLit "UID", u] := by
    have h : splitChar '=' (strLit "UID" ++ '=' :: u) = [strLit "UID", u] := by
      rw [splitChar_append_sep _ (by decide), splitChar_not_mem hu₂]
    exact h
  have k₅ : splitChar '=' (strLit "PWD=" ++ p) = [strLit "PWD", p] := by
    have h : splitChar '=' (strLit "PWD" ++ '=' :: p) = [strLit "PWD", p] := by
      rw [splitChar_append_sep _ (by decide), splitChar_not_mem hp₂]
    exact h
  have k₆ : splitChar '=' (strLit "trusted_connection=" ++ tc)
      = [strLit "trusted_connection", tc] := by
    have h : splitChar '=' (strLit "trusted_connection" ++ '=' :: tc)
        = [strLit "trusted_connection", tc] := by
      rw [splitChar_append_sep _ (by decide), splitChar_not_mem htc₂]
    exact h
  have hfold : parseAttrs '=' []
      [strLit "driver=" ++ dr, strLit "server=" ++ (sv ++ '\\' :: inst),
       strLit "database=" ++ db, strLit "UID=" ++ u, strLit "PWD=" ++ p,
       strLit "trusted_connection=" ++ tc]
      = Except.ok [(strLit "driver", dr), (strLit "server", sv ++ '\\' :: inst),
          (strLit "database", db), (strLit "uid", u), (strLit "pwd", p),
          (strLit "trusted_connection", tc)] := by
    simp only [parseAttrs, k₁, k₂, k₃, k₄, k₅, k₆]
    rfl
  have hget : dictGet [(strLit "driver", dr), (strLit "server", sv ++ '\\' :: inst),
      (strLit "database", db), (strLit "uid", u), (strLit "pwd", p),
      (strLit "trusted_connection", tc)] (strLit "server") = some (sv ++ '\\' :: inst) := rfl
  have hbs : splitChar '\\' (sv ++ '\\' :: inst) = [sv, inst] := by
    rw [splitChar_append_sep _ hsv₃, splitChar_not_mem hin₃]
  have hE : encodedOf dr sv inst db u p tc
      = (strLit "driver=" ++ dr) ++ ';' :: ((strLit "server=" ++ (sv ++ '\\' :: inst))
        ++ ';' :: ((strLit "database=" ++ db) ++ ';' :: ((strLit "UID=" ++ u)
        ++ ';' :: ((strLit "PWD=" ++ p)
        ++ ';' :: (strLit "trusted_connection=" ++ tc))))) := by
    simp [encodedOf, strLit, List.append_assoc]
  simp only [connection_string_to_attributes, hE, hsplit, hfold]
  exact serverSplitPhase_two hget hbs

/-- C8: the human-readable connection-information projection never depends on
the password: two attribute sets differing only in their password project
identically, and the projection's password entry is the fixed literal
`'WITHHELD or None'`. -/
theorem connection_information_redacts_password (a : ConnectionAttributes)
    (p₁ p₂ : Option Str) :
    connection_information { a with password := p₁ }
      = connection_information { a with password := p₂ }
    ∧ (connection_information a).lookup (strLit "password")
      = some (some (strLit "WITHHELD or None")) := by
  constructor
  · rfl
  · rfl

/-- The concrete attributes used to refute the unrestricted round-trip. -/
def roundtripCexAttrs : ConnectionAttributes :=
  { server := some (strLit "s"), instanceName := some (strLit "i"),
    database := some (strLit "d"), driver := some (strLit "dr"),
    username := some (strLit "u"), password := some (strLit "p"),
    port := PyVal.int 0, trusted_connection := some (strLit "yes") }

/-- Attributes whose server itself carries a backslash-separated suffix,
used to refute the round-trip's backslash-suffix case. -/
def roundtripCexAttrsBS : ConnectionAttributes :=
  { server := some (strLit "s\\x"), instanceName := some (strLit "i"),
    database := some (strLit "d"), driver := some (strLit "dr"),
    username := some [], password := some [],
    port := PyVal.int 0, trusted_connection := some (strLit "yes") }

/-- What decoding the backslash-suffix encoding actually produces: the
unsplit joined server and the default instance. -/
def roundtripCexAttrsBSDecoded : ConnectionAttributes :=
  { roundtripCexAttrsBS with
    server := some (strLit "s\\x\\i"),
    instanceName := some (strLit "SQLEXPRESS") }

/-- C2 counterexample, both failure modes.  Credentials: encoding writes
them under `UID`/`PWD`, but decoding binds only `username`/`password`
keywords, so the decoded instance has empty credentials.  Backslash-suffix
server: encoding appends `\instance`, so the encoded server splits into
three fields, the decoder skips the two-field split, and the decoded server
is the joined `s\x\i` with the instance reset to the default `SQLEXPRESS` —
`decode(encode(attrs)) ≠ attrs` in both cases. -/
theorem roundtrip_counterexample :
    connection_string roundtripCexAttrs Option.none
      = some (strLit "driver=dr;server=s\\i;database=d;UID=u;PWD=p;trusted_connection=yes")
    ∧ with_connection_string 1
        (strLit "driver=dr;server=s\\i;database=d;UID=u;PWD=p;trusted_connection=yes")
      = Except.ok { roundtripCexAttrs with username := some [], password := some [] }
    ∧ ({ roundtripCexAttrs with username := some [], password := some [] }
        : ConnectionAttributes) ≠ roundtripCexAttrs
    ∧ connection_string roundtripCexAttrsBS Option.none
      = some (strLit "driver=dr;server=s\\x\\i;database=d;UID=;PWD=;trusted_connection=yes")
    ∧ with_connection_string 1
        (strLit "driver=dr;server=s\\x\\i;database=d;UID=;PWD=;trusted_connection=yes")
      = Except.ok roundtripCexAttrsBSDecoded
    ∧ roundtripCexAttrsBSDecoded ≠ roundtripCexAttrsBS := by
  exact ⟨by rfl, by rfl, by decide, by rfl, by rfl, by decide⟩

/-- A truthy (non-`None`, non-empty) string attribute. -/
theorem truthyOStr_of_ne {s : Str} (h : s ≠ []) : truthyOStr (some s) = true := by
  cases s with
  | nil => exact absurd rfl h
  | cons a t => rfl

/-- C2 amended: for attributes whose server, instance, database and driver
are non-empty and free of `;`, `=` and `\`, whose trusted-connection flag is
free of `;` and `=`, and whose rendered username and password are free of
`;` and `=` — with the username, password and port otherwise arbitrary —
encode-then-decode succeeds, recovers the server, instance, database, driver
and trusted-connection fields, and resets the username and password to the
empty string and the port to `0`; hence `decode(encode(attrs)) = attrs`
holds exactly when the username and password are `''` and the port is `0`.
(A server itself carrying a backslash-separated suffix is excluded: per
`roundtrip_counterexample` it decodes to the unsplit joined string.) -/
theorem roundtrip_amended (dr sv inst db tc : Str) (u p : Option Str) (port : PyVal)
    (hdrne : dr ≠ []) (hsvne : sv ≠ []) (hinne : inst ≠ []) (hdbne : db ≠ [])
    (hdr₁ : ';' ∉ dr) (hdr₂ : '=' ∉ dr)
    (hsv₁ : ';' ∉ sv) (hsv₂ : '=' ∉ sv) (hsv₃ : '\\' ∉ sv)
    (hin₁ : ';' ∉ inst) (hin₂ : '=' ∉ inst) (hin₃ : '\\' ∉ inst)
    (hdb₁ : ';' ∉ db) (hdb₂ : '=' ∉ db)
    (hu₁ : ';' ∉ fstr u) (hu₂ : '=' ∉ fstr u)
    (hp₁ : ';' ∉ fstr p) (hp₂ : '=' ∉ fstr p)
    (htc₁ : ';' ∉ tc) (htc₂ : '=' ∉ tc) :
    connection_string (fullAttrs dr sv inst db tc u p port) Option.none
      = some (encodedOf dr sv inst db (fstr u) (fstr p) tc)
    ∧ with_connection_string 1 (encodedOf dr sv inst db (fstr u) (fstr p) tc)
      = Except.ok (fullAttrs dr sv inst db tc (some []) (some []) (PyVal.int 0))
    ∧ (with_connection_string 1 (encodedOf dr sv inst db (fstr u) (fstr p) tc)
        = Except.ok (fullAttrs dr sv inst db tc u p port)
        ↔ (u = some [] ∧ p = some [] ∧ port = PyVal.int 0)) := by
  have hdec : with_connection_string 1 (encodedOf dr sv inst db (fstr u) (fstr p) tc)
      = Except.ok (fullAttrs dr sv inst db tc (some []) (some []) (PyVal.int 0)) := by
    have hne : encodedOf dr sv inst db (fstr u) (fstr p) tc ≠ [] := by
      simp [encodedOf, strLit]
    rw [with_connection_string, if_neg hne,
      parse_encoded dr sv inst db (fstr u) (fstr p) tc hdr₁ hdr₂ hsv₁ hsv₂ hsv₃
        hin₁ hin₂ hin₃ hdb₁ hdb₂ hu₁ hu₂ hp₁ hp₂ htc₁ htc₂]
    rfl
  refine ⟨?_, hdec, ?_⟩
  · simp only [connection_string, fullAttrs, truthyOStr_of_ne hsvne,
      truthyOStr_of_ne hinne, truthyOStr_of_ne hdbne, truthyOStr_of_ne hdrne,
      Bool.and_self, if_true, encodedOf]
    simp [fstr, List.append_assoc]
  · constructor
    · intro hEq
      have hrec := Except.ok.inj (hdec.symm.trans hEq)
      rw [fullAttrs, fullAttrs, ConnectionAttributes.mk.injEq] at hrec
      exact ⟨hrec.2.2.2.2.1.symm, hrec.2.2.2.2.2.1.symm, hrec.2.2.2.2.2.2.1.symm⟩
    · rintro ⟨rfl, rfl, rfl⟩
      exact hdec

/-- Witness for `roundtrip_amended` at server `s`, instance `i`, database
`d`, driver `dr`, trust flag `yes`, username `u`, password `p` and port
`5432`: decoding the encoding resets the credentials and port, and the
decoded value is not the original attributes. -/
theorem roundtrip_amended_witness :
    connection_string (fullAttrs (strLit "dr") (strLit "s") (strLit "i") (strLit "d")
        (strLit "yes") (some (strLit "u")) (some (strLit "p")) (PyVal.int 5432))
        Option.none
      = some (encodedOf (strLit "dr") (strLit "s") (strLit "i") (strLit "d")
          (strLit "u") (strLit "p") (strLit "yes"))
    ∧ with_connection_string 1 (encodedOf (strLit "dr") (strLit "s") (strLit "i")
        (strLit "d") (strLit "u") (strLit "p") (strLit "yes"))
      = Except.ok (fullAttrs (strLit "dr") (strLit "s") (strLit "i") (strLit "d")
          (strLit "yes") (some []) (some []) (PyVal.int 0))
    ∧ ¬(with_connection_string 1 (encodedOf (strLit "dr") (strLit "s") (strLit "i")
        (strLit "d") (strLit "u") (strLit "p") (strLit "yes"))
      = Except.ok (fullAttrs (strLit "dr") (strLit "s") (strLit "i") (strLit "d")
          (strLit "yes") (some (strLit "u")) (some (strLit "p")) (PyVal.int 5432))) := by
  have h := roundtrip_amended (strLit "dr") (strLit "s") (strLit "i") (strLit "d")
    (strLit "yes") (some (strLit "u")) (some (strLit "p")) (PyVal.int 5432)
    (by decide) (by decide) (by decide) (by decide) (by decide) (by decide)
    (by decide) (by decide) (by decide) (by decide) (by decide) (by decide)
    (by decide) (by decide) (by decide) (by decide) (by decide) (by decide)
    (by decide) (by decide)
  exact ⟨h.1, h.2.1, fun hEq => absurd (h.2.2.1 hEq).1 (by decide)⟩

/-- C7 counterexample: decoding `server=s;pwd=a=b` maps `pwd` to `a` — the
text between the first and second `=` — not to the full remainder `a=b`. -/
theorem decode_truncates_counterexample :
    connection_string_to_attributes (strLit "server=s;pwd=a=b") ';' '='
      = Except.ok [(strLit "server", strLit "s"), (strLit "pwd", strLit "a")]
    ∧ dictGet [(strLit "server", strLit "s"), (strLit "pwd", strLit "a")] (strLit "pwd")
      = some (strLit "a")
    ∧ some (strLit "a") ≠ some (strLit "a=b") := by
  exact ⟨by rfl, by rfl, by decide⟩

/-- A connection string whose `pwd` attribute itself contains the key/value
delimiter: `server=<sv>;pwd=<a>=<b>`. -/
def truncString (sv a b : Str) : Str :=
  strLit "server=" ++ sv ++ strLit ";pwd=" ++ a ++ ['='] ++ b

/-- C7 amended: when an attribute's value contains the key/value delimiter,
decoding maps the lower-cased key to the text strictly between the first and
second occurrences of the delimiter (`split[1]`), discarding everything after
the second occurrence — not to the entire remainder. -/
theorem decode_truncates_amended (sv a b : Str)
    (hsv₁ : ';' ∉ sv) (hsv₂ : '=' ∉ sv) (hsv₃ : '\\' ∉ sv)
    (ha₁ : ';' ∉ a) (ha₂ : '=' ∉ a) (hb₁ : ';' ∉ b) (hb₂ : '=' ∉ b) :
    connection_string_to_attributes (truncString sv a b) ';' '='
      = Except.ok [(strLit "server", sv), (strLit "pwd", a)] := by
  have hsplit : splitChar ';'
      ((strLit "server=" ++ sv) ++ ';' :: (strLit "pwd=" ++ (a ++ '=' :: b)))
      = [strLit "server=" ++ sv, strLit "pwd=" ++ (a ++ '=' :: b)] := by
    rw [splitChar_append_sep _ (not_mem_append_of (by decide) hsv₁),
        splitChar_not_mem (not_mem_append_of (by decide)
          (not_mem_append_of ha₁ (not_mem_cons_of (by decide) hb₁)))]
  have k₁ : splitChar '=' (strLit "server=" ++ sv) = [strLit "server", sv] := by
    have h : splitChar '=' (strLit "server" ++ '=' :: sv) = [strLit "server", sv] := by
      rw [splitChar_append_sep _ (by decide), splitChar_not_mem hsv₂]
    exact h
  have k₂ : splitChar '=' (strLit "pwd=" ++ (a ++ '=' :: b)) = [strLit "pwd", a, b] := by
    have h : splitChar '=' (strLit "pwd" ++ '=' :: (a ++ '=' :: b))
        = [strLit "pwd", a, b] := by
      rw [splitChar_append_sep _ (by decide), splitChar_append_sep _ ha₂,
        splitChar_not_mem hb₂]
    exact h
  have hfold : parseAttrs '=' []
      [strLit "server=" ++ sv, strLit "pwd=" ++ (a ++ '=' :: b)]
      = Except.ok [(strLit "server", sv), (strLit "pwd", a)] := by
    simp only [parseAttrs, k₁, k₂]
    rfl
  have hget : dictGet [(strLit "server", sv), (strLit "pwd", a)] (strLit "server")
      = some sv := rfl
  have hE : truncString sv a b
      = (strLit "server=" ++ sv) ++ ';' :: (strLit "pwd=" ++ (a ++ '=' :: b)) := by
    simp [truncString, strLit, List.append_assoc]
  simp only [connection_string_to_attributes, hE, hsplit, hfold]
  exact serverSplitPhase_one hget (splitChar_not_mem hsv₃)

/-- Witness for `decode_truncates_amended` at `server=s;pwd=a=b`. -/
theorem decode_truncates_amended_witness :
    connection_string_to_attributes (truncString (strLit "s") (strLit "a") (strLit "b"))
      ';' '=' = Except.ok [(strLit "server", strLit "s"), (strLit "pwd", strLit "a")] :=
  decode_truncates_amended (strLit "s") (strLit "a") (strLit "b")
    (by decide) (by decide) (by decide) (by decide) (by decide) (by decide) (by decide)

/-! ### Record reshaping (`list_dict_results` / `_ConvertToFinalListDict`) -/

/-- A per-row record: a column-name-to-value mapping, kept as the ordered
list of items of the Python dict. -/
abbrev RowDict := List (Str × PyVal)

/-- The ordering used by `sorted(x.items())`: ascending on the column name
(lexicographic by code point; keys are unique within a dict, so the value
component never decides). -/
def keyLe : (Str × PyVal) → (Str × PyVal) → Prop := fun p q => p.1 ≤ q.1

instance : DecidableRel keyLe := fun p q => inferInstanceAs (Decidable (p.1 ≤ q.1))

instance : IsTotal (Str × PyVal) keyLe := ⟨fun a b => le_total a.1 b.1⟩

instance : IsTrans (Str × PyVal) keyLe := ⟨fun _ _ _ h₁ h₂ => le_trans h₁ h₂⟩

/-- The effect of `dict(ChainMap(*row_list_dict))` on the singleton dicts
`{col: cell}` built for one row: the first occurrence of each key wins. -/
def dedupKeysAux (seen : List Str) : RowDict → RowDict
  | [] => []
  | p :: rest =>
    if p.1 ∈ seen then dedupKeysAux seen rest
    else p :: dedupKeysAux (p.1 :: seen) rest

/-- One iteration of the row loop of `_ConvertToFinalListDict`
(SQLHelpersAJM.py lines 282-287, 292): `zip(row, col_names)` pairs each cell
with its column positionally, `dict(ChainMap(...))` merges the singleton
dicts with the first occurrence of a duplicate column winning, and
`dict(sorted(x.items()))` emits the items in ascending key order. -/
def rowToDict (cols : List Str) (row : Row) : RowDict :=
  List.insertionSort keyLe
    (dedupKeysAux [] ((row.zip cols).map (fun cv => (cv.2, cv.1))))

/-- Truthiness of `self.results_column_names` (a list of names or `None`). -/
def colsTruthy : Option (List Str) → Bool
  | some (_ :: _) => true
  | _ => false

/-- The row loop of `_ConvertToFinalListDict`: each row is reshaped while
column metadata is truthy; otherwise `_NoResultsToConvertError` is raised. -/
def convertRows (colNames : Option (List Str)) : List Row → Except PyErr (List RowDict)
  | [] => Except.ok []
  | row :: rest =>
    match colNames with
    | some (c :: cs) =>
      match convertRows colNames rest with
      | Except.error e => Except.error e
      | Except.ok ds => Except.ok (rowToDict (c :: cs) row :: ds)
    | _ => Except.error PyErr.noResultsToConvert

/-- `_BaseSQLHelper._ConvertToFinalListDict` (SQLHelpersAJM.py lines
268-293): reshape every row into a sorted column-keyed record; an empty
final list yields `None`. -/
def ConvertToFinalListDict (colNames : Option (List Str)) (results : List Row) :
    Except PyErr (Option (List RowDict)) :=
  match convertRows colNames results with
  | Except.error e => Except.error e
  | Except.ok fl => if 0 < fl.length then Except.ok (some fl) else Except.ok Option.none

theorem lookup_eq_none_iff (l : RowDict) (k : Str) :
    l.lookup k = Option.none ↔ k ∉ l.map Prod.fst := by
  induction l with
  | nil => simp [List.lookup]
  | cons p rest ih =>
    obtain ⟨k', v'⟩ := p
    by_cases h : k = k'
    · subst h
      simp [List.lookup]
    · simp [List.lookup, beq_false_of_ne h, ih, h]

theorem mem_of_lookup_eq_some {l : RowDict} {k : Str} {v : PyVal}
    (h : l.lookup k = some v) : (k, v) ∈ l := by
  induction l with
  | nil => simp [List.lookup] at h
  | cons p rest ih =>
    obtain ⟨k', v'⟩ := p
    by_cases hk : k = k'
    · subst hk
      simp [List.lookup] at h
      simp [h]
    · simp [List.lookup, beq_false_of_ne hk] at h
      exact List.mem_cons_of_mem _ (ih h)

theorem lookup_eq_some_of_mem : ∀ {l : RowDict}, (l.map Prod.fst).Nodup →
    ∀ {k : Str} {v : PyVal}, (k, v) ∈ l → l.lookup k = some v := by
  intro l
  induction l with
  | nil => intro _ k v hm; simp at hm
  | cons p rest ih =>
    intro hnd k v hm
    obtain ⟨k', v'⟩ := p
    simp only [List.map_cons, List.nodup_cons] at hnd
    rcases List.mem_cons.1 hm with h | h
    · obtain ⟨rfl, rfl⟩ := Prod.mk.injEq .. ▸ h
      simp [List.lookup]
    · have hk : k ≠ k' := by
        intro e
        subst e
        exact hnd.1 (List.mem_map_of_mem Prod.fst h)
      simp [List.lookup, beq_false_of_ne hk]
      exact ih hnd.2 h

theorem lookup_perm {l₁ l₂ : RowDict} (hp : l₁.Perm l₂)
    (hnd : (l₁.map Prod.fst).Nodup) (k : Str) :
    l₁.lookup k = l₂.lookup k := by
  cases hcase : l₁.lookup k with
  | none =>
    rw [lookup_eq_none_iff] at hcase
    have h₂ : k ∉ l₂.map Prod.fst := fun hm => hcase ((hp.map Prod.fst).mem_iff.2 hm)
    exact ((lookup_eq_none_iff _ _).2 h₂).symm
  | some v =>
    have hm : (k, v) ∈ l₂ := hp.mem_iff.1 (mem_of_lookup_eq_some hcase)
    exact (lookup_eq_some_of_mem ((hp.map Prod.fst).nodup_iff.1 hnd) hm).symm

theorem dedupKeysAux_of_nodup : ∀ (seen : List Str) (l : RowDict),
    (l.map Prod.fst).Nodup → (∀ p ∈ l, p.1 ∉ seen) → dedupKeysAux seen l = l := by
  intro seen l
  induction l generalizing seen with
  | nil => intro _ _; rfl
  | cons p rest ih =>
    intro hnd hdis
    simp only [List.map_cons, List.nodup_cons] at hnd
    have hp : p.1 ∉ seen := hdis p (List.mem_cons_self p rest)
    rw [dedupKeysAux, if_neg hp]
    congr 1
    refine ih (p.1 :: seen) hnd.2 ?_
    intro q hq
    intro hmem
    rcases List.mem_cons.1 hmem with h | h
    · exact hnd.1 (h ▸ List.mem_map_of_mem Prod.fst hq)
    · exact hdis q (List.mem_cons_of_mem p hq) h

/-- With distinct column names and a full-width row, the raw zipped pairs
look up positionally. -/
theorem lookup_zip_swap : ∀ (cols : List Str) (row : Row), cols.Nodup →
    row.length = cols.length → ∀ (i : Nat) (hi : i < cols.length),
    ((row.zip cols).map (fun cv => (cv.2, cv.1))).lookup (cols.get ⟨i, hi⟩)
      = some (row.getD i PyVal.none) := by
  intro cols
  induction cols with
  | nil => intro row _ _ i hi; exact absurd hi (by simp)
  | cons c cs ih =>
    intro row hnd hlen i hi
    cases row with
    | nil => simp at hlen
    | cons r rs =>
      simp only [List.nodup_cons] at hnd
      cases i with
      | zero => simp [List.lookup]
      | succ j =>
        have hj : j < cs.length := Nat.lt_of_succ_lt_succ hi
        have hk : (c :: cs).get ⟨j + 1, hi⟩ = cs.get ⟨j, hj⟩ := rfl
        have hne : c ≠ cs.get ⟨j, hj⟩ := by
          intro e
          exact hnd.1 (e ▸ List.get_mem cs j hj)
        rw [hk]
        simp only [List.zip_cons_cons, List.map_cons, List.lookup,
          beq_false_of_ne (Ne.symm hne)]
        exact ih rs hnd.2 (Nat.succ_injective hlen) j hj

/-- Reshaping one row: the dict is a permutation-invariant lookup table on
the raw zipped pairs. -/
theorem lookup_rowToDict (cols : List Str) (row : Row) (hnd : cols.Nodup)
    (hlen : row.length = cols.length) (k : Str) :
    (rowToDict cols row).lookup k
      = ((row.zip cols).map (fun cv => (cv.2, cv.1))).lookup k := by
  have hkeys : (((row.zip cols).map (fun cv => (cv.2, cv.1))).map Prod.fst) = cols := by
    rw [List.map_map]
    have : (Prod.fst ∘ fun cv : PyVal × Str => (cv.2, cv.1)) = Prod.snd := rfl
    rw [this]
    exact List.map_snd_zip row cols (le_of_eq hlen.symm)
  have hnd' : (((row.zip cols).map (fun cv => (cv.2, cv.1))).map Prod.fst).Nodup := by
    rw [hkeys]; exact hnd
  have hded : dedupKeysAux [] ((row.zip cols).map (fun cv => (cv.2, cv.1)))
      = (row.zip cols).map (fun cv => (cv.2, cv.1)) :=
    dedupKeysAux_of_nodup [] _ hnd' (by intro p _; simp)
  rw [rowToDict, hded]
  exact lookup_perm (List.perm_insertionSort keyLe _) (by
    exact ((List.perm_insertionSort keyLe _).map Prod.fst).nodup_iff.2 hnd') k

/-- With truthy column metadata, the row loop reshapes every row in order. -/
theorem convertRows_of_cols (c : Str) (cs : List Str) :
    ∀ rows : List Row, convertRows (some (c :: cs)) rows
      = Except.ok (rows.map (rowToDict (c :: cs))) := by
  intro rows
  induction rows with
  | nil => rfl
  | cons row rest ih => rw [convertRows, ih]; rfl

/-- C4: with column names from the cursor metadata, `_ConvertToFinalListDict`
maps each raw row to a record from column name to the positionally
corresponding value, each record's keys in ascending order; without column
metadata a non-empty row set raises the no-results-to-convert error. -/
theorem ConvertToFinalListDict_spec (cols : List Str) (rows : List Row)
    (hne : cols ≠ []) (hnd : cols.Nodup) :
    ConvertToFinalListDict (some cols) rows
      = Except.ok (if rows = [] then Option.none else some (rows.map (rowToDict cols)))
    ∧ (∀ row : Row, row.length = cols.length →
        (∀ (i : Nat) (hi : i < cols.length),
          (rowToDict cols row).lookup (cols.get ⟨i, hi⟩) = some (row.getD i PyVal.none))
        ∧ List.Sorted keyLe (rowToDict cols row))
    ∧ (∀ rows' : List Row, rows' ≠ [] →
        ConvertToFinalListDict Option.none rows' = Except.error PyErr.noResultsToConvert) := by
  obtain ⟨c, cs, rfl⟩ := List.exists_cons_of_ne_nil hne
  refine ⟨?_, ?_, ?_⟩
  · rw [ConvertToFinalListDict, convertRows_of_cols c cs rows]
    cases rows with
    | nil => rfl
    | cons row rest => simp
  · intro row hlen
    constructor
    · intro i hi
      rw [lookup_rowToDict _ _ hnd hlen]
      exact lookup_zip_swap _ row hnd hlen i hi
    · exact List.sorted_insertionSort keyLe _
  · intro rows' hne'
    obtain ⟨row, rest, rfl⟩ := List.exists_cons_of_ne_nil hne'
    rfl

/-- Witness for `ConvertToFinalListDict_spec`: columns `['id','name']` and
rows `[(1,'a'),(2,'b')]` reshape to `[{'id':1,'name':'a'},{'id':2,'name':'b'}]`
with keys in sorted order, and a missing cursor description raises the
conversion error. -/
theorem ConvertToFinalListDict_spec_witness :
    ConvertToFinalListDict (some [strLit "id", strLit "name"])
      [[PyVal.int 1, PyVal.str (strLit "a")], [PyVal.int 2, PyVal.str (strLit "b")]]
      = Except.ok (some
          [[(strLit "id", PyVal.int 1), (strLit "name", PyVal.str (strLit "a"))],
           [(strLit "id", PyVal.int 2), (strLit "name", PyVal.str (strLit "b"))]])
    ∧ ConvertToFinalListDict Option.none [[PyVal.int 1]]
      = Except.error PyErr.noResultsToConvert := by
  have h := ConvertToFinalListDict_spec [strLit "id", strLit "name"]
    [[PyVal.int 1, PyVal.str (strLit "a")], [PyVal.int 2, PyVal.str (strLit "b")]]
    (by decide) (by decide)
  exact ⟨h.1.trans (by rfl), h.2.2 [[PyVal.int 1]] (by decide)⟩

/-! ### Postgres trigger-function provisioning (`PostgresHelperTT`) -/

/-- Python `s.split(sep)[0]` for a non-empty separator: the text before the
first occurrence of `sep`, or all of `s` when `sep` does not occur. -/
def takeBeforeSub (sep : Str) : Str → Str
  | [] => []
  | a :: rest => if sep.isPrefixOf (a :: rest) then [] else a :: takeBeforeSub sep rest

/-- Scanner for `replaceSub`: while `skip` is positive the characters belong
to an occurrence already replaced and are dropped; at `skip = 0` an
occurrence of `pat` emits `repl` and schedules the rest of the occurrence to
be dropped. -/
def replaceGo (pat repl : Str) : Str → Nat → Str
  | [], _ => []
  | _ :: rest, skip + 1 => replaceGo pat repl rest skip
  | a :: rest, 0 =>
    if pat.isPrefixOf (a :: rest) then
      repl ++ replaceGo pat repl rest (pat.length - 1)
    else a :: replaceGo pat repl rest 0

/-- Python `template.format(...)` placeholder substitution for one named
placeholder: every occurrence of `pat` is replaced by `repl`, scanning left
to right without rescanning the replacement. -/
def replaceSub (pat repl s : Str) : Str :=
  if pat = [] then s else replaceGo pat repl s 0

/-- `PostgresHelperTT._format_func_name` (Postgres.py lines 208-210):
`name.split('_FUNC')[0].lower()` — strip everything from the `_FUNC` suffix
and lower-case. -/
def format_func_name (name : Str) : Str :=
  (takeBeforeSub (strLit "_FUNC") name).map Char.toLower

/-- `PostgresHelperTT._is_func_attr` (Postgres.py lines 212-215). -/
def is_func_attr (name : Str) : Bool :=
  (strLit "LOG_AFTER_").isPrefixOf name && (strLit "_FUNC").isSuffixOf name

/-- `_PostgresTableTracker.FUNC_EXISTS_CHECK` (Postgres.py lines 87-96; the
template's SQL comments and indentation are compressed). -/
def FUNC_EXISTS_CHECK : Str :=
  strLit "SELECT\nEXISTS (\n SELECT 1\n FROM pg_proc p\n JOIN pg_namespace n ON p.pronamespace = n.oid\n WHERE p.proname = '{function_name}'\n AND n.nspname = '{schema_name}'\n);"

/-- `_PostgresTableTracker.LOG_AFTER_INSERT_FUNC` (Postgres.py lines 48-59,
indentation compressed). -/
def LOG_AFTER_INSERT_FUNC : Str :=
  strLit "CREATE OR REPLACE FUNCTION log_after_insert() RETURNS TRIGGER AS $$\nBEGIN\n INSERT INTO audit_log (table_name, operation, old_row_data, new_row_data)\n VALUES (\n TG_TABLE_NAME,\n 'INSERT',\n NULL,\n row_to_json(NEW)::jsonb\n );\n RETURN NEW;\nEND;\n$$ LANGUAGE plpgsql;"

/-- `_PostgresTableTracker.LOG_AFTER_UPDATE_FUNC` (Postgres.py lines 61-72,
indentation compressed). -/
def LOG_AFTER_UPDATE_FUNC : Str :=
  strLit "CREATE OR REPLACE FUNCTION log_after_update() RETURNS TRIGGER AS $$\nBEGIN\n INSERT INTO audit_log (table_name, operation, old_row_data, new_row_data)\n VALUES (\n TG_TABLE_NAME,\n 'UPDATE',\n row_to_json(OLD)::jsonb,\n row_to_json(NEW)::jsonb\n );\n RETURN NEW;\nEND;\n$$ LANGUAGE plpgsql;"

/-- `_PostgresTableTracker.LOG_AFTER_DELETE_FUNC` (Postgres.py lines 74-85,
indentation compressed). -/
def LOG_AFTER_DELETE_FUNC : Str :=
  strLit "CREATE OR REPLACE FUNCTION log_after_delete() RETURNS TRIGGER AS $$\nBEGIN\n INSERT INTO audit_log (table_name, operation, old_row_data, new_row_data)\n VALUES (\n TG_TABLE_NAME,\n 'DELETE',\n row_to_json(OLD)::jsonb,\n NULL\n );\n RETURN OLD;\nEND;\n$$ LANGUAGE plpgsql;"

/-- `PostgresHelperTT._get_func_exists_check_str` (Postgres.py lines
217-222): `FUNC_EXISTS_CHECK.format(function_name=..., schema_name=...)`. -/
def get_func_exists_check_str (func_name schema_choice : Str) : Str :=
  replaceSub (strLit "{schema_name}") schema_choice
    (replaceSub (strLit "{function_name}") func_name FUNC_EXISTS_CHECK)

/-- `self._psql_function_attrs_func_name` (Postgres.py lines 204-205): the
class attributes selected by `_is_func_attr` from `__dir__()` paired with
their derived function names; the three `LOG_AFTER_*_FUNC` templates are the
only matching attributes (listed in class-declaration order; `__dir__()`
order is unspecified and nothing below depends on it). -/
def psql_function_attrs_func_name : List (Str × Str) :=
  [(strLit "LOG_AFTER_INSERT_FUNC", format_func_name (strLit "LOG_AFTER_INSERT_FUNC")),
   (strLit "LOG_AFTER_UPDATE_FUNC", format_func_name (strLit "LOG_AFTER_UPDATE_FUNC")),
   (strLit "LOG_AFTER_DELETE_FUNC", format_func_name (strLit "LOG_AFTER_DELETE_FUNC"))]

/-- `getattr(self.__class__, attr_name)` for the three template roles. -/
def funcAttrTemplate (name : Str) : Str :=
  if name = strLit "LOG_AFTER_INSERT_FUNC" then LOG_AFTER_INSERT_FUNC
  else if name = strLit "LOG_AFTER_UPDATE_FUNC" then LOG_AFTER_UPDATE_FUNC
  else if name = strLit "LOG_AFTER_DELETE_FUNC" then LOG_AFTER_DELETE_FUNC
  else []

/-- A statement issued through `self.query` during provisioning: a read-only
existence check, or a DDL write issued with `is_commit=True`. -/
inductive Stmt where
  | read (sql : Str)
  | write (sql : Str)
deriving DecidableEq, Repr

/-- `PostgresHelperTT._check_or_create_functions` (Postgres.py lines
224-235): for each template role, query the formatted existence check
(read-only), take `exists = bool(self.query_results)` — the normalized fetch
of that check — and issue the role's `CREATE OR REPLACE FUNCTION` DDL as a
committed write exactly when the check came back falsy.  `fetch` gives the
rows each check query fetches. -/
def check_or_create_functions (fetch : Str → List Row) (schema_choice : Str) : List Stmt :=
  List.flatten (psql_function_attrs_func_name.map (fun f =>
    let sql_q := get_func_exists_check_str f.2 schema_choice
    let exists_ := truthyNorm (normalize_single_result (fetch sql_q))
    Stmt.read sql_q :: if exists_ then [] else [Stmt.write (funcAttrTemplate f.1)]))

/-- C5: for each of the three trigger-function roles, provisioning derives
the function name by stripping `_FUNC` and lower-casing, issues the
existence check formatted with that name and the schema as a read, and
issues the role's `CREATE OR REPLACE FUNCTION` DDL as a committed write
exactly when the check reported the function absent. -/
theorem check_or_create_functions_spec (fetch : Str → List Row) (schema : Str)
    (b₁ b₂ b₃ : Bool)
    (h₁ : fetch (get_func_exists_check_str (strLit "log_after_insert") schema)
      = [[PyVal.bool b₁]])
    (h₂ : fetch (get_func_exists_check_str (strLit "log_after_update") schema)
      = [[PyVal.bool b₂]])
    (h₃ : fetch (get_func_exists_check_str (strLit "log_after_delete") schema)
      = [[PyVal.bool b₃]]) :
    format_func_name (strLit "LOG_AFTER_INSERT_FUNC") = strLit "log_after_insert"
    ∧ format_func_name (strLit "LOG_AFTER_UPDATE_FUNC") = strLit "log_after_update"
    ∧ format_func_name (strLit "LOG_AFTER_DELETE_FUNC") = strLit "log_after_delete"
    ∧ check_or_create_functions fetch schema
      = [Stmt.read (get_func_exists_check_str (strLit "log_after_insert") schema)]
        ++ (if b₁ then [] else [Stmt.write LOG_AFTER_INSERT_FUNC])
        ++ [Stmt.read (get_func_exists_check_str (strLit "log_after_update") schema)]
        ++ (if b₂ then [] else [Stmt.write LOG_AFTER_UPDATE_FUNC])
        ++ [Stmt.read (get_func_exists_check_str (strLit "log_after_delete") schema)]
        ++ (if b₃ then [] else [Stmt.write LOG_AFTER_DELETE_FUNC]) := by
  have e₁ : format_func_name (strLit "LOG_AFTER_INSERT_FUNC")
      = strLit "log_after_insert" := by decide
  have e₂ : format_func_name (strLit "LOG_AFTER_UPDATE_FUNC")
      = strLit "log_after_update" := by decide
  have e₃ : format_func_name (strLit "LOG_AFTER_DELETE_FUNC")
      = strLit "log_after_delete" := by decide
  have t₁ : funcAttrTemplate (strLit "LOG_AFTER_INSERT_FUNC") = LOG_AFTER_INSERT_FUNC := by
    rfl
  have t₂ : funcAttrTemplate (strLit "LOG_AFTER_UPDATE_FUNC") = LOG_AFTER_UPDATE_FUNC := by
    rfl
  have t₃ : funcAttrTemplate (strLit "LOG_AFTER_DELETE_FUNC") = LOG_AFTER_DELETE_FUNC := by
    rfl
  refine ⟨e₁, e₂, e₃, ?_⟩
  simp only [check_or_create_functions, psql_function_attrs_func_name, List.map_cons,
    List.map_nil, e₁, e₂, e₃, h₁, h₂, h₃, t₁, t₂, t₃]
  simp [normalize_single_result, truthyNorm, truthyVal, List.append_assoc]

set_option maxRecDepth 8192 in
/-- Witness for `check_or_create_functions_spec`: with the update function
absent and the other two present, the trace is three reads plus exactly the
one committed `CREATE OR REPLACE FUNCTION log_after_update` write. -/
theorem check_or_create_functions_spec_witness :
    check_or_create_functions
      (fun sql => if sql = get_func_exists_check_str (strLit "log_after_update")
          (strLit "public") then [[PyVal.bool false]] else [[PyVal.bool true]])
      (strLit "public")
      = [Stmt.read (get_func_exists_check_str (strLit "log_after_insert") (strLit "public")),
         Stmt.read (get_func_exists_check_str (strLit "log_after_update") (strLit "public")),
         Stmt.write LOG_AFTER_UPDATE_FUNC,
         Stmt.read (get_func_exists_check_str (strLit "log_after_delete") (strLit "public"))] := by
  have h := check_or_create_functions_spec
    (fun sql => if sql = get_func_exists_check_str (strLit "log_after_update")
        (strLit "public") then [[PyVal.bool false]] else [[PyVal.bool true]])
    (strLit "public") true false true (by decide) (by decide) (by decide)
  exact h.2.2.2.trans (by decide)

/-! ### The construction-time attribute contract for tracking-enabled
backends -/

/-- The template roles of the per-dialect catalog (spec §3); the last four
are required only by the Postgres dialect. -/
inductive TemplateRole where
  | auditTableDDL
  | auditTableExistsCheck
  | triggerExistsCheck
  | columnNamesQuery
  | insertTriggerDDL
  | updateTriggerDDL
  | deleteTriggerDDL
  | insertFunctionDDL
  | updateFunctionDDL
  | deleteFunctionDDL
  | functionExistsCheck
deriving DecidableEq, Repr

/-- The contract-violation errors raised at construction.
`missingRequiredAttribute` corresponds to `MissingRequiredClassAttribute`
(backend/errors.py lines 10-11), carrying the roles it identifies;
`noTrackedTables` to `NoTrackedTablesError` (backend/errors.py lines 14-16). -/
inductive ContractError where
  | missingRequiredAttribute (roles : List TemplateRole)
  | noTrackedTables
deriving DecidableEq, Repr

/-- Whether a catalog entry violates the contract: absent, empty, or bound
to the not-yet-implemented placeholder. -/
def roleMissing (catalog : TemplateRole → Option Str) (placeholder : Str)
    (r : TemplateRole) : Bool :=
  match catalog r with
  | Option.none => true
  | some s => s.isEmpty || s == placeholder

/-- Modelled from the spec: the roles reported by the construction-time gate.
The enforcing code — the `ABCCreateTriggers` / `ABCPostgresCreateTriggers`
metaclasses of `backend/meta.py` and the required-attribute bookkeeping of
`BaseCreateTriggers` in `SQLHelpersAJM/bases.py` — is not under src/; spec
§4.1 requires the gate to identify every missing or placeholder role. -/
def missingRoles (catalog : TemplateRole → Option Str) (placeholder : Str)
    (required : List TemplateRole) : List TemplateRole :=
  required.filter (roleMissing catalog placeholder)

/-- Modelled from the spec: the construction-time gate of §4.1.  A catalog
missing any required role (or binding it to the placeholder) aborts
construction with `missingRequiredAttribute` naming every such role; with a
complete catalog, a tracked-table set containing nothing but the
ignore-sentinel aborts with `noTrackedTables`. -/
def attributeContractCheck (catalog : TemplateRole → Option Str) (placeholder : Str)
    (required : List TemplateRole) (tables : List Str) (sentinel : Str) :
    Except ContractError Unit :=
  match missingRoles catalog placeholder required with
  | [] =>
    if (tables.filter (fun t => !(t == sentinel))).isEmpty then
      Except.error ContractError.noTrackedTables
    else Except.ok ()
  | ms => Except.error (ContractError.missingRequiredAttribute ms)

/-- C3: whenever at least one required role is missing, empty or bound to
the placeholder, construction fails with the contract-violation error, and
the error identifies exactly the violating roles — every one of them, not
just the first. -/
theorem attributeContract_reports_all (catalog : TemplateRole → Option Str)
    (placeholder : Str) (required : List TemplateRole) (tables : List Str)
    (sentinel : Str)
    (h : ∃ r ∈ required, roleMissing catalog placeholder r = true) :
    attributeContractCheck catalog placeholder required tables sentinel
      = Except.error (ContractError.missingRequiredAttribute
          (missingRoles catalog placeholder required))
    ∧ ∀ r ∈ required,
        (r ∈ missingRoles catalog placeholder required
          ↔ (catalog r = Option.none ∨ catalog r = some []
              ∨ catalog r = some placeholder)) := by
  constructor
  · obtain ⟨r, hr, hm⟩ := h
    have hmem : r ∈ missingRoles catalog placeholder required :=
      List.mem_filter.2 ⟨hr, hm⟩
    cases hms : missingRoles catalog placeholder required with
    | nil => rw [hms] at hmem; exact absurd hmem (by simp)
    | cons m ms =>
      rw [attributeContractCheck, hms]
  · intro r hr
    rw [missingRoles, List.mem_filter]
    cases hc : catalog r with
    | none => simp [roleMissing, hc, hr]
    | some s =>
      cases s with
      | nil => simp [roleMissing, hc, hr, List.isEmpty]
      | cons a t =>
        constructor
        · intro hmem
          have hb := hmem.2
          rw [roleMissing, hc] at hb
          simp only [List.isEmpty, Bool.false_or] at hb
          right; right
          exact congrArg some (beq_iff_eq.1 hb)
        · rintro (h' | h' | h')
          · exact absurd h' (by simp)
          · exact absurd h' (by simp)
          · refine ⟨hr, ?_⟩
            rw [roleMissing, hc]
            have ht : (a :: t : Str) = placeholder := Option.some.inj h'
            simp [ht]

/-- Witness for `attributeContract_reports_all`: a Postgres-style catalog
whose insert-function DDL is absent and whose function-exists check is the
placeholder is rejected with both roles named. -/
theorem attributeContract_reports_all_witness :
    attributeContractCheck
      (fun r => match r with
        | TemplateRole.insertFunctionDDL => Option.none
        | TemplateRole.functionExistsCheck => some (strLit "NOT IMPLEMENTED")
        | _ => some (strLit "SELECT 1;"))
      (strLit "NOT IMPLEMENTED")
      [TemplateRole.auditTableDDL, TemplateRole.insertFunctionDDL,
       TemplateRole.functionExistsCheck]
      [strLit "test_table"] (strLit "ignore")
      = Except.error (ContractError.missingRequiredAttribute
          [TemplateRole.insertFunctionDDL, TemplateRole.functionExistsCheck]) := by
  have h := attributeContract_reports_all
    (fun r => match r with
      | TemplateRole.insertFunctionDDL => Option.none
      | TemplateRole.functionExistsCheck => some (strLit "NOT IMPLEMENTED")
      | _ => some (strLit "SELECT 1;"))
    (strLit "NOT IMPLEMENTED")
    [TemplateRole.auditTableDDL, TemplateRole.insertFunctionDDL,
     TemplateRole.functionExistsCheck]
    [strLit "test_table"] (strLit "ignore")
    ⟨TemplateRole.insertFunctionDDL, by decide, by decide⟩
  exact h.1.trans (by rfl)

end SQLHelpersAJM
